import Mathlib

/-
Formal model of the Polymarket Creator Payout Tool (violetliie/PM-Payout-Tool-New).

The repository ships the product specification (SPEC.md, README.md) and the React
front end (frontend/src).  The Python backend named by README.md
(backend/services/payout.py, matcher.py, shortimize.py, excel_export.py) is not
part of the source tree, so the payout tier engine, the cross-platform matcher,
the deduplicator and the creator aggregator are modelled here from the
specification's words; the front-end definitions are translated from
frontend/src/App.jsx and frontend/src/components/ResultsCard.jsx.
-/

namespace PM

/-! ## Payout tier engine -/

/-- Modelled from the spec: backend/services/payout.py is absent from the sources.
Step C of SPEC.md "Apply Payout Tiers (per video)" / spec §4.4 step 3: the tier
table applied to the effective view count, with the 6M–10M band computed as
1500 + 150 × (⌊effective / 1,000,000⌋ − 5) using floor division. -/
def tierPayout (effective : Nat) : Nat :=
  if effective < 1000 then 0
  else if effective < 10000 then 35
  else if effective < 50000 then 50
  else if effective < 100000 then 100
  else if effective < 250000 then 150
  else if effective < 500000 then 300
  else if effective < 1000000 then 500
  else if effective < 2000000 then 700
  else if effective < 3000000 then 900
  else if effective < 4000000 then 1100
  else if effective < 5000000 then 1300
  else if effective < 6000000 then 1500
  else 1500 + 150 * (effective / 1000000 - 5)

/-- Modelled from the spec: Step B of SPEC.md "Apply 10M View Cap" / spec §4.4
step 2: effective views = min(chosen, 10,000,000). -/
def effectiveViews (chosen : Nat) : Nat := min chosen 10000000

/-- Modelled from the spec: the payout tier engine as a whole (spec §4.4), a pure
function of a payout unit's chosen view count: cap first, then the tier table. -/
def payout (chosen : Nat) : Nat := tierPayout (effectiveViews chosen)

/-- An if-free closed form for the tier table, used to prove monotonicity:
the table is a sum of saturated threshold bonuses. -/
def tierFormula (e : Nat) : Nat :=
  35 * min (e / 1000) 1 + 15 * min (e / 10000) 1 + 50 * min (e / 50000) 1 +
    50 * min (e / 100000) 1 + 150 * min (e / 250000) 1 + 200 * min (e / 500000) 1 +
    200 * min (e / 1000000) 5 + 150 * (e / 1000000 - 5)

/-! ## Front end: App.jsx state and handleCalculate -/

/-- Lexicographic comparison of two character lists by code point, the order
JavaScript uses for its string relational operators. -/
def codeLt : List Char → List Char → Bool
  | [], [] => false
  | [], _ :: _ => true
  | _ :: _, [] => false
  | a :: as, b :: bs =>
    if a.toNat < b.toNat then true
    else if b.toNat < a.toNat then false
    else codeLt as bs

/-- JavaScript string comparison `a < b` as used by `startDate > endDate` in
frontend/src/App.jsx (for the ASCII date strings involved, code-unit order and
code-point order agree). -/
def strLt (a b : String) : Bool := codeLt a.data b.data

/-- The summary object of a successful `/api/calculate` response, with the
fields read by frontend/src/components/ResultsCard.jsx and App.jsx. -/
structure Summary where
  total_creators : Nat
  total_payout : Nat
  total_videos_processed : Nat
  total_paired : Nat
  total_unpaired : Nat
  total_exceptions : Nat
deriving DecidableEq

/-- A successful response of `calculatePayouts` (frontend/src/services/api). -/
structure CalcResponse where
  summary : Summary
  filename : String
deriving DecidableEq

/-- Outcome of the awaited `calculatePayouts` call: a parsed response, or a
thrown error with its message. -/
inductive BackendResult where
  | ok (data : CalcResponse)
  | err (message : String)
deriving DecidableEq

/-- The React state of the App component (frontend/src/App.jsx): form state,
pipeline state, result state and error state. -/
structure AppState where
  startDate : String
  endDate : String
  isLoading : Bool
  statusText : String
  summary : Option Summary
  filename : Option String
  isEmpty : Bool
  error : Option String
deriving DecidableEq

/-- The handleCalculate function of frontend/src/App.jsx as a state transformer.
The returned Bool records whether `calculatePayouts` was invoked. -/
def handleCalculate (backend : String → String → BackendResult) (s : AppState) :
    AppState × Bool :=
  if s.startDate = "" ∨ s.endDate = "" then
    ({ s with error := some "Please select both a start date and an end date." }, false)
  else if strLt s.endDate s.startDate then
    ({ s with error := some "Start date must be on or before the end date." }, false)
  else
    let s1 : AppState :=
      { s with error := none, summary := none, filename := none,
               isEmpty := false, isLoading := true,
               statusText := "Fetching data from Shortimize API..." }
    match backend s.startDate s.endDate with
    | .ok data =>
      let s2 : AppState := { s1 with statusText := "Processing complete!" }
      let s3 : AppState :=
        if data.summary.total_videos_processed = 0 ∧ data.summary.total_creators = 0 then
          { s2 with isEmpty := true }
        else
          { s2 with summary := some data.summary, filename := some data.filename }
      ({ s3 with isLoading := false, statusText := "" }, true)
    | .err m =>
      ({ s1 with error := some m, isLoading := false, statusText := "" }, true)

/-- The EmptyState component is rendered exactly when the isEmpty flag is set
(`isEmpty && <EmptyState />` in App.jsx). -/
def emptyStateShown (s : AppState) : Bool := s.isEmpty

/-- ResultsCard returns null when its summary prop is null
(frontend/src/components/ResultsCard.jsx line 15), so the results card is
rendered exactly when the stored summary is present. -/
def resultsCardRendered (s : AppState) : Bool := s.summary.isSome

/-! ## Data model: records, payout units, exceptions -/

/-- The two platforms a record can come from; the Record Normalizer restricts
platform to this set (other platforms are dropped upstream). -/
inductive Platform where
  | tiktok
  | instagram
deriving DecidableEq

/-- Modelled from the spec: backend/models/schemas.py is absent from the sources.
A canonical VideoRecord per spec §3: platform, username, resolved creator
identity, stable link and stable id, timestamps, duration in whole seconds and
the latest view count.  Records reaching the deduplicator and matcher are
valid, so duration and views are plain naturals here. -/
structure VideoRecord where
  platform : Platform
  username : String
  creator : String
  link : Option String
  vid : Nat
  createdAt : Nat
  uploadedAt : Option Nat
  lastUpdated : Nat
  duration : Nat
  views : Nat
deriving DecidableEq

/-- Modelled from the spec: a PayoutUnit per spec §3 is either a cross-platform
pair (with its match method) or a solo record. -/
inductive PayoutUnit where
  | pair (primary secondary : VideoRecord) (method : String)
  | solo (r : VideoRecord)
deriving DecidableEq

/-- The records referenced by one payout unit. -/
def recordsOf : PayoutUnit → List VideoRecord
  | .pair t g _ => [t, g]
  | .solo r => [r]

/-- Modelled from the spec: an ExceptionRecord per spec §3 is the original
record plus a reason code. -/
structure ExceptionRecord where
  record : VideoRecord
  reason : String
deriving DecidableEq

/-- All records referenced by a list of payout units. -/
def unitRecs : List PayoutUnit → List VideoRecord
  | [] => []
  | u :: us => recordsOf u ++ unitRecs us

/-- All records carried by a list of exception records. -/
def excRecs : List ExceptionRecord → List VideoRecord
  | [] => []
  | e :: es => e.record :: excRecs es

/-- Exception reason for a signature-provider failure. -/
def extractionFailedReason : String := "first frame extraction failed"

/-- Exception reason for a record left unmatched after Phase 2. -/
def unpairedReason : String := "unpaired — no cross-platform match found"

/-! ## Cross-platform matcher -/

/-- Hamming distance between two perceptual hashes, viewed as bit strings of
equal length. -/
def hammingDist (a b : List Bool) : Nat :=
  ((a.zip b).filter (fun p => p.1 != p.2)).length

/-- The external signature provider (spec §6): returns the perceptual hash of a
record's first frame, or none on a download/extraction failure. -/
abbrev Provider := VideoRecord → Option (List Bool)

/-- Output of Phase 1: confirmed units, exceptions, and the two per-platform
unmatched pools handed to Phase 2. -/
structure Phase1Out where
  units : List PayoutUnit
  excs : List ExceptionRecord
  poolT : List VideoRecord
  poolG : List VideoRecord
deriving DecidableEq

/-- Modelled from the spec: backend/services/matcher.py is absent from the
sources.  Phase 1 sequence pairing per spec §4.3: the i-th TikTok record is
tried against the i-th Instagram record; a pair is confirmed only on exact
duration equality and hash Hamming distance ≤ 10, provider failure sends both
records to exceptions, rejected pairs return both sides to the unmatched pools,
and positional surplus enters the pools directly. -/
def phase1 (σ : Provider) : List VideoRecord → List VideoRecord → Phase1Out
  | [], gs => ⟨[], [], [], gs⟩
  | t :: ts, [] => ⟨[], [], t :: ts, []⟩
  | t :: ts, g :: gs =>
    match σ t, σ g with
    | some ht, some hg =>
      if t.duration = g.duration ∧ hammingDist ht hg ≤ 10 then
        ⟨PayoutUnit.pair t g "sequence" :: (phase1 σ ts gs).units, (phase1 σ ts gs).excs,
          (phase1 σ ts gs).poolT, (phase1 σ ts gs).poolG⟩
      else
        ⟨(phase1 σ ts gs).units, (phase1 σ ts gs).excs,
          t :: (phase1 σ ts gs).poolT, g :: (phase1 σ ts gs).poolG⟩
    | _, _ =>
      ⟨(phase1 σ ts gs).units,
        ⟨t, extractionFailedReason⟩ :: ⟨g, extractionFailedReason⟩ :: (phase1 σ ts gs).excs,
        (phase1 σ ts gs).poolT, (phase1 σ ts gs).poolG⟩

/-- Left fold that keeps the least element seen so far with respect to a
boolean strict-order `lt`, keeping the earlier element on ties. -/
def pickMin {α : Type} (lt : α → α → Bool) (x : α) (xs : List α) : α :=
  xs.foldl (fun acc y => if lt y acc then y else acc) x

/-- Strict lexicographic comparison by a primary and a secondary numeric key. -/
def lexLt {α : Type} (f g : α → Nat) (a b : α) : Bool :=
  decide (f a < f b) || (decide (f a = f b) && decide (g a < g b))

/-- Absolute difference of two timestamps. -/
def timeDist (a b : Nat) : Nat := max a b - min a b

/-- Phase 2 candidate pool for an unmatched record `r` with hash `hr`: records
of the other platform with exactly equal duration whose hash resolves and lies
within Hamming distance 10, each tagged with its distance (spec §4.3 steps 1
and 2 of the fallback search). -/
def candidates (σ : Provider) (r : VideoRecord) (hr : List Bool)
    (pool : List VideoRecord) : List (VideoRecord × Nat) :=
  pool.filterMap (fun c =>
    if c.platform ≠ r.platform ∧ c.duration = r.duration then
      (σ c).bind (fun hc =>
        if hammingDist hr hc ≤ 10 then some (c, hammingDist hr hc) else none)
    else none)

/-- Candidate preference order: lowest Hamming distance first, ties broken by
the creation timestamp closest to the unmatched record. -/
def candLt (r : VideoRecord) : VideoRecord × Nat → VideoRecord × Nat → Bool :=
  lexLt (fun p => p.2) (fun p => timeDist p.1.createdAt r.createdAt)

/-- The accepted candidate: the surviving candidate with the lowest Hamming
distance, remaining ties broken by the closest creation timestamp (spec §4.3
step 3 of the fallback search). -/
def selectBest (r : VideoRecord) : List (VideoRecord × Nat) → Option (VideoRecord × Nat)
  | [] => none
  | x :: xs => some (pickMin (candLt r) x xs)

/-- Modelled from the spec: backend/services/matcher.py is absent from the
sources.  Phase 2 fallback pool search per spec §4.3: the pooled unmatched
records are processed in order (matchCreator passes them sorted ascending by
creation time); each record searches the other platform's remaining records,
the accepted candidate is removed from the pool immediately (mark used), and a
record with no surviving candidate becomes an exception — reason "unpaired" if
its hash resolved, extraction failure otherwise (spec §4.3 failure
semantics). -/
def phase2 (σ : Provider) (pool : List VideoRecord) :
    List PayoutUnit × List ExceptionRecord :=
  match pool with
  | [] => ([], [])
  | r :: rest =>
    match σ r with
    | none =>
      ((phase2 σ rest).1, ⟨r, extractionFailedReason⟩ :: (phase2 σ rest).2)
    | some hr =>
      match selectBest r (candidates σ r hr rest) with
      | none =>
        ((phase2 σ rest).1, ⟨r, unpairedReason⟩ :: (phase2 σ rest).2)
      | some (c, _) =>
        (PayoutUnit.pair r c "fallback" :: (phase2 σ (rest.erase c)).1,
          (phase2 σ (rest.erase c)).2)
termination_by pool.length
decreasing_by
  all_goals simp only [List.length_cons]
  all_goals
    first
      | exact Nat.lt_succ_of_le (List.Sublist.length_le (List.erase_sublist c rest))
      | omega

/-- Ascending creation-time order (Step 8 of SPEC.md and the Phase 2
processing order of spec §4.3). -/
def sortByCreated (l : List VideoRecord) : List VideoRecord :=
  List.insertionSort (fun a b => a.createdAt ≤ b.createdAt) l

/-- Modelled from the spec: the whole per-creator matcher (spec §4.3): sort the
two platform sequences ascending by creation time, run Phase 1 sequence
pairing, pool the leftovers sorted ascending by creation time, and run the
Phase 2 fallback search over the pool. -/
def matchCreator (σ : Provider) (ts gs : List VideoRecord) :
    List PayoutUnit × List ExceptionRecord :=
  ((phase1 σ (sortByCreated ts) (sortByCreated gs)).units ++
      (phase2 σ (sortByCreated ((phase1 σ (sortByCreated ts) (sortByCreated gs)).poolT ++
        (phase1 σ (sortByCreated ts) (sortByCreated gs)).poolG))).1,
    (phase1 σ (sortByCreated ts) (sortByCreated gs)).excs ++
      (phase2 σ (sortByCreated ((phase1 σ (sortByCreated ts) (sortByCreated gs)).poolT ++
        (phase1 σ (sortByCreated ts) (sortByCreated gs)).poolG))).2)

/-! ## Deduplicator -/

/-- Injective encoding of a list of naturals as one natural, via the Cantor
pairing function. -/
def natListEnc : List Nat → Nat
  | [] => 0
  | x :: xs => Nat.pair x (natListEnc xs) + 1

/-- Injective encoding of a string as a natural. -/
def strEnc (s : String) : Nat := natListEnc (s.data.map Char.toNat)

/-- Injective encoding of an optional string as a natural. -/
def optStrEnc : Option String → Nat
  | none => 0
  | some s => strEnc s + 1

/-- Injective encoding of an optional natural as a natural. -/
def optNatEnc : Option Nat → Nat
  | none => 0
  | some n => n + 1

/-- Numeric code of a platform. -/
def platCode : Platform → Nat
  | .tiktok => 0
  | .instagram => 1

/-- Injective encoding of a whole record as a natural: the canonical tie-break
key that makes the winner of a duplicate group independent of input order. -/
def recKey (r : VideoRecord) : Nat :=
  natListEnc [strEnc r.username, strEnc r.creator, optStrEnc r.link, platCode r.platform,
    r.vid, r.createdAt, optNatEnc r.uploadedAt, r.lastUpdated, r.duration, r.views]

/-- Preference used to choose the kept record of a duplicate group:
`dedupPref a b` holds when `b` beats `a`, i.e. `b` has a strictly more recent
last-updated timestamp, or an equal timestamp and a larger canonical key. -/
def dedupPref : VideoRecord → VideoRecord → Bool :=
  fun a b => lexLt (fun r => r.lastUpdated) recKey b a

/-- Modelled from the spec: backend Step 6 deduplication code is absent from the
sources.  Grouping key per spec §4.2: the stable link, falling back to the
stable id when the link is absent. -/
def dedupKey (r : VideoRecord) : Sum String Nat :=
  match r.link with
  | some l => Sum.inl l
  | none => Sum.inr r.vid

/-- The group of records of a run sharing one dedup key. -/
def groupOf (rs : List VideoRecord) (k : Sum String Nat) : List VideoRecord :=
  rs.filter (fun r => decide (dedupKey r = k))

/-- Exception reason for a conflicting duplicate row. -/
def conflictReason : String := "duplicate row with conflicting values"

/-- The record kept from a duplicate group: maximal last-updated timestamp,
canonical key as tie-break (spec §4.2). -/
def dedupKept : List VideoRecord → Option VideoRecord
  | [] => none
  | x :: xs => some (pickMin dedupPref x xs)

/-- The materially conflicting losers of a duplicate group: the distinct
records tied at the winning last-updated timestamp other than the kept one
(records equal to the kept record in every field are collapsed silently,
per spec §4.2). -/
def dedupLosers (g : List VideoRecord) : List VideoRecord :=
  match dedupKept g with
  | none => []
  | some w =>
    ((g.filter (fun r => decide (r.lastUpdated = w.lastUpdated))).dedup).filter
      (fun r => decide (¬r = w))

/-- Modelled from the spec: deduplication of one group (spec §4.2): keep the
most recent record, route conflicting tied duplicates to exceptions. -/
def dedupGroup (g : List VideoRecord) : Option VideoRecord × List ExceptionRecord :=
  (dedupKept g, (dedupLosers g).map (fun r => ⟨r, conflictReason⟩))

/-- Modelled from the spec: the Deduplicator over a whole run (spec §4.2):
group by dedup key and dedup each group. -/
def dedupRun (rs : List VideoRecord) : List VideoRecord × List ExceptionRecord :=
  (((rs.map dedupKey).dedup).filterMap (fun k => dedupKept (groupOf rs k)),
    ((rs.map dedupKey).dedup).foldr
      (fun k acc => (dedupGroup (groupOf rs k)).2 ++ acc) [])

/-! ## Creator aggregator -/

/-- The creator identity a payout unit is accounted to. -/
def unitCreator : PayoutUnit → String
  | .pair t _ _ => t.creator
  | .solo r => r.creator

/-- Chosen view count of a payout unit: the maximum across platforms for a
pair, the record's own views for a solo (spec §3). -/
def chosenViews : PayoutUnit → Nat
  | .pair t g _ => max t.views g.views
  | .solo r => r.views

/-- Whether a payout unit is a cross-platform pair. -/
def isPairedUnit : PayoutUnit → Bool
  | .pair _ _ _ => true
  | .solo _ => false

/-- Modelled from the spec: one output row of the Creator Aggregator
(spec §3 and §4.5). -/
structure CreatorAggregate where
  creator : String
  totalPayout : Nat
  qualifiedCount : Nat
  pairedCount : Nat
  exceptionCount : Nat
deriving DecidableEq

/-- Every creator identity observed anywhere in the run's outcome: on any
record referenced by a payout unit or carried by an exception record. -/
def observedCreators (units : List PayoutUnit) (excs : List ExceptionRecord) :
    List String :=
  ((unitRecs units ++ excRecs excs).map (fun r => r.creator)).dedup

/-- Modelled from the spec: backend Step D aggregation code is absent from the
sources.  The aggregate of one creator (spec §4.5): payout summed across priced
paired units only, counts of qualified units (chosen ≥ 1,000), paired units and
exceptions. -/
def aggFor (c : String) (units : List PayoutUnit) (excs : List ExceptionRecord) :
    CreatorAggregate :=
  { creator := c
    totalPayout := (((units.filter (fun u => decide (unitCreator u = c))).filter
      isPairedUnit).map (fun u => payout (chosenViews u))).sum
    qualifiedCount := (units.filter (fun u => decide (unitCreator u = c))).countP
      (fun u => decide (1000 ≤ chosenViews u))
    pairedCount := (units.filter (fun u => decide (unitCreator u = c))).countP isPairedUnit
    exceptionCount := excs.countP (fun e => decide (e.record.creator = c)) }

/-- Modelled from the spec: the Creator Aggregator (spec §4.5): one aggregate
per distinct creator identity observed anywhere. -/
def aggregateRun (units : List PayoutUnit) (excs : List ExceptionRecord) :
    List CreatorAggregate :=
  (observedCreators units excs).map (fun c => aggFor c units excs)

/-! ## Sample data for concrete evaluations -/

/-- A signature provider that always returns the empty hash. -/
def wProv2 : Provider := fun _ => some []

/-- Sample TikTok record for a paired run. -/
def wr2t : VideoRecord :=
  { platform := Platform.tiktok, username := "flowa", creator := "alice",
    link := some "tk1", vid := 1, createdAt := 1, uploadedAt := some 1,
    lastUpdated := 1, duration := 10, views := 500 }

/-- Sample Instagram record for a paired run. -/
def wr2g : VideoRecord :=
  { platform := Platform.instagram, username := "flowb", creator := "alice",
    link := some "ig1", vid := 2, createdAt := 2, uploadedAt := some 1,
    lastUpdated := 1, duration := 10, views := 800 }

/-- Sample paired unit below the qualification threshold. -/
def w3unit : PayoutUnit :=
  PayoutUnit.pair
    { platform := Platform.tiktok, username := "flowa", creator := "alice",
      link := some "tk3", vid := 3, createdAt := 1, uploadedAt := some 1,
      lastUpdated := 1, duration := 10, views := 500 }
    { platform := Platform.instagram, username := "flowb", creator := "alice",
      link := some "ig3", vid := 4, createdAt := 2, uploadedAt := some 1,
      lastUpdated := 1, duration := 10, views := 800 }
    "sequence"

/-- A signature provider that always returns the empty hash. -/
def wProv4 : Provider := fun _ => some []

/-- Sample record with no cross-platform candidate. -/
def wr4 : VideoRecord :=
  { platform := Platform.tiktok, username := "flowa", creator := "alice",
    link := some "tk4", vid := 5, createdAt := 1, uploadedAt := some 1,
    lastUpdated := 1, duration := 20, views := 5000 }

/-- A signature provider that always returns the empty hash. -/
def wProv5 : Provider := fun _ => some []

/-- Sample TikTok record for a sequence-confirmed pair. -/
def wr5t : VideoRecord :=
  { platform := Platform.tiktok, username := "flowa", creator := "alice",
    link := some "tk5", vid := 6, createdAt := 1, uploadedAt := some 1,
    lastUpdated := 1, duration := 10, views := 2500 }

/-- Sample Instagram record for a sequence-confirmed pair. -/
def wr5g : VideoRecord :=
  { platform := Platform.instagram, username := "flowb", creator := "alice",
    link := some "ig5", vid := 7, createdAt := 2, uploadedAt := some 1,
    lastUpdated := 1, duration := 10, views := 3500 }

/-- A signature provider that always returns the empty hash. -/
def wProv6 : Provider := fun _ => some []

/-- Sample unmatched TikTok record for a fallback search. -/
def wr6r : VideoRecord :=
  { platform := Platform.tiktok, username := "flowa", creator := "alice",
    link := some "tk6", vid := 8, createdAt := 0, uploadedAt := some 1,
    lastUpdated := 1, duration := 10, views := 2500 }

/-- Fallback candidate further away in creation time. -/
def wr6c1 : VideoRecord :=
  { platform := Platform.instagram, username := "flowb", creator := "alice",
    link := some "ig6a", vid := 9, createdAt := 5, uploadedAt := some 1,
    lastUpdated := 1, duration := 10, views := 3500 }

/-- Fallback candidate closest in creation time. -/
def wr6c2 : VideoRecord :=
  { platform := Platform.instagram, username := "flowb", creator := "alice",
    link := some "ig6b", vid := 10, createdAt := 1, uploadedAt := some 1,
    lastUpdated := 1, duration := 10, views := 3600 }

/-- First of two conflicting duplicate rows sharing one link and timestamp. -/
def wg1 : VideoRecord :=
  { platform := Platform.tiktok, username := "flowa", creator := "alice",
    link := some "tk8", vid := 11, createdAt := 1, uploadedAt := some 1,
    lastUpdated := 5, duration := 10, views := 100 }

/-- Second of two conflicting duplicate rows sharing one link and timestamp. -/
def wg2 : VideoRecord :=
  { platform := Platform.tiktok, username := "flowa", creator := "alice",
    link := some "tk8", vid := 11, createdAt := 1, uploadedAt := some 1,
    lastUpdated := 5, duration := 10, views := 250 }

/-! ## Payout engine theorems (C1, C7) -/

lemma tierPayout_band1 {e : Nat} (h : e < 1000) : tierPayout e = 0 := by
  unfold tierPayout
  rw [if_pos h]

lemma tierPayout_band2 {e : Nat} (h1 : 1000 ≤ e) (h2 : e < 10000) : tierPayout e = 35 := by
  unfold tierPayout
  repeat rw [if_neg (by omega)]
  rw [if_pos h2]

lemma tierPayout_band3 {e : Nat} (h1 : 10000 ≤ e) (h2 : e < 50000) : tierPayout e = 50 := by
  unfold tierPayout
  repeat rw [if_neg (by omega)]
  rw [if_pos h2]

lemma tierPayout_band4 {e : Nat} (h1 : 50000 ≤ e) (h2 : e < 100000) : tierPayout e = 100 := by
  unfold tierPayout
  repeat rw [if_neg (by omega)]
  rw [if_pos h2]

lemma tierPayout_band5 {e : Nat} (h1 : 100000 ≤ e) (h2 : e < 250000) : tierPayout e = 150 := by
  unfold tierPayout
  repeat rw [if_neg (by omega)]
  rw [if_pos h2]

lemma tierPayout_band6 {e : Nat} (h1 : 250000 ≤ e) (h2 : e < 500000) : tierPayout e = 300 := by
  unfold tierPayout
  repeat rw [if_neg (by omega)]
  rw [if_pos h2]

lemma tierPayout_band7 {e : Nat} (h1 : 500000 ≤ e) (h2 : e < 1000000) : tierPayout e = 500 := by
  unfold tierPayout
  repeat rw [if_neg (by omega)]
  rw [if_pos h2]

lemma tierPayout_band8 {e : Nat} (h1 : 1000000 ≤ e) (h2 : e < 2000000) : tierPayout e = 700 := by
  unfold tierPayout
  repeat rw [if_neg (by omega)]
  rw [if_pos h2]

lemma tierPayout_band9 {e : Nat} (h1 : 2000000 ≤ e) (h2 : e < 3000000) : tierPayout e = 900 := by
  unfold tierPayout
  repeat rw [if_neg (by omega)]
  rw [if_pos h2]

lemma tierPayout_band10 {e : Nat} (h1 : 3000000 ≤ e) (h2 : e < 4000000) : tierPayout e = 1100 := by
  unfold tierPayout
  repeat rw [if_neg (by omega)]
  rw [if_pos h2]

lemma tierPayout_band11 {e : Nat} (h1 : 4000000 ≤ e) (h2 : e < 5000000) : tierPayout e = 1300 := by
  unfold tierPayout
  repeat rw [if_neg (by omega)]
  rw [if_pos h2]

lemma tierPayout_band12 {e : Nat} (h1 : 5000000 ≤ e) (h2 : e < 6000000) : tierPayout e = 1500 := by
  unfold tierPayout
  repeat rw [if_neg (by omega)]
  rw [if_pos h2]

lemma tierPayout_band13 {e : Nat} (h : 6000000 ≤ e) :
    tierPayout e = 1500 + 150 * (e / 1000000 - 5) := by
  unfold tierPayout
  repeat rw [if_neg (by omega)]

lemma tierPayout_eq_formula (e : Nat) : tierPayout e = tierFormula e := by
  rcases Nat.lt_or_ge e 1000 with h1 | h1
  · rw [tierPayout_band1 h1]; unfold tierFormula; omega
  rcases Nat.lt_or_ge e 10000 with h2 | h2
  · rw [tierPayout_band2 h1 h2]; unfold tierFormula; omega
  rcases Nat.lt_or_ge e 50000 with h3 | h3
  · rw [tierPayout_band3 h2 h3]; unfold tierFormula; omega
  rcases Nat.lt_or_ge e 100000 with h4 | h4
  · rw [tierPayout_band4 h3 h4]; unfold tierFormula; omega
  rcases Nat.lt_or_ge e 250000 with h5 | h5
  · rw [tierPayout_band5 h4 h5]; unfold tierFormula; omega
  rcases Nat.lt_or_ge e 500000 with h6 | h6
  · rw [tierPayout_band6 h5 h6]; unfold tierFormula; omega
  rcases Nat.lt_or_ge e 1000000 with h7 | h7
  · rw [tierPayout_band7 h6 h7]; unfold tierFormula; omega
  rcases Nat.lt_or_ge e 2000000 with h8 | h8
  · rw [tierPayout_band8 h7 h8]; unfold tierFormula; omega
  rcases Nat.lt_or_ge e 3000000 with h9 | h9
  · rw [tierPayout_band9 h8 h9]; unfold tierFormula; omega
  rcases Nat.lt_or_ge e 4000000 with h10 | h10
  · rw [tierPayout_band10 h9 h10]; unfold tierFormula; omega
  rcases Nat.lt_or_ge e 5000000 with h11 | h11
  · rw [tierPayout_band11 h10 h11]; unfold tierFormula; omega
  rcases Nat.lt_or_ge e 6000000 with h12 | h12
  · rw [tierPayout_band12 h11 h12]; unfold tierFormula; omega
  · rw [tierPayout_band13 h12]; unfold tierFormula; omega

set_option maxHeartbeats 1000000 in
lemma tierPayout_mono {a b : Nat} (h : a ≤ b) : tierPayout a ≤ tierPayout b := by
  rw [tierPayout_eq_formula a, tierPayout_eq_formula b]
  unfold tierFormula
  omega

/-- C1: The payout tier engine is a total function on chosen view counts that
first sets effective = min(chosen, 10,000,000) and then applies the tier table
with exact, gap-free boundaries; the twelve listed boundary inputs produce
exactly the listed payouts, and on the top band the payout is computed as
1500 + 150 × (⌊effective / 1,000,000⌋ − 5) using floor division. -/
theorem payout_tier_boundaries :
    (∀ chosen, payout chosen = tierPayout (min chosen 10000000)) ∧
    payout 999 = 0 ∧ payout 1000 = 35 ∧ payout 9999 = 35 ∧
    payout 10000 = 50 ∧ payout 49999 = 50 ∧ payout 50000 = 100 ∧
    payout 999999 = 500 ∧ payout 1000000 = 700 ∧ payout 6700000 = 1650 ∧
    payout 9200000 = 2100 ∧ payout 10000000 = 2250 ∧ payout 12000000 = 2250 ∧
    (∀ chosen, 6000000 ≤ effectiveViews chosen →
      payout chosen = 1500 + 150 * (effectiveViews chosen / 1000000 - 5)) := by
  refine ⟨fun chosen => rfl, ?_, ?_, ?_, ?_, ?_, ?_, ?_, ?_, ?_, ?_, ?_, ?_, ?_⟩
  · decide
  · decide
  · decide
  · decide
  · decide
  · decide
  · decide
  · decide
  · decide
  · decide
  · decide
  · decide
  · intro chosen h
    show tierPayout (effectiveViews chosen) = _
    exact tierPayout_band13 h

/-- Witness for C1: the top-band clause applied at the concrete input 6,700,000. -/
theorem payout_tier_boundaries_witness :
    payout 6700000 = 1500 + 150 * (effectiveViews 6700000 / 1000000 - 5) :=
  payout_tier_boundaries.2.2.2.2.2.2.2.2.2.2.2.2.2 6700000 (by decide)

/-- C7: payout is monotone non-decreasing in the chosen view count, pays 0 below
the 1,000-view qualification threshold, and is constant (equal to the value at
the 10M cap) for every chosen count above 10,000,000. -/
theorem payout_mono_qualification_cap :
    (∀ a b, a ≤ b → payout a ≤ payout b) ∧
    (∀ chosen, chosen < 1000 → payout chosen = 0) ∧
    (∀ chosen, 10000000 < chosen → payout chosen = payout 10000000) := by
  refine ⟨fun a b h => ?_, fun chosen h => ?_, fun chosen h => ?_⟩
  · apply tierPayout_mono
    unfold effectiveViews
    omega
  · show tierPayout (effectiveViews chosen) = 0
    apply tierPayout_band1
    unfold effectiveViews
    omega
  · unfold payout effectiveViews
    rw [Nat.min_eq_right (by omega), Nat.min_eq_right (by omega)]

/-- Witness for C7: monotonicity applied at 500 ≤ 2,500,000, the qualification
threshold at 500, and cap invariance at 12,345,678. -/
theorem payout_mono_qualification_cap_witness :
    payout 500 ≤ payout 2500000 ∧ payout 500 = 0 ∧
    payout 12345678 = payout 10000000 :=
  ⟨payout_mono_qualification_cap.1 500 2500000 (by decide),
   payout_mono_qualification_cap.2.1 500 (by decide),
   payout_mono_qualification_cap.2.2 12345678 (by decide)⟩

/-! ## Generic order and argmin lemmas -/

lemma lexLt_eq_true_iff {α : Type} (f g : α → Nat) (a b : α) :
    lexLt f g a b = true ↔ (f a < f b ∨ (f a = f b ∧ g a < g b)) := by
  simp [lexLt]

lemma lexLt_eq_false_iff {α : Type} (f g : α → Nat) (a b : α) :
    lexLt f g a b = false ↔ ¬(f a < f b ∨ (f a = f b ∧ g a < g b)) := by
  rw [← lexLt_eq_true_iff f g a b]
  simp

lemma lexLt_trans {α : Type} (f g : α → Nat) (a b c : α)
    (h1 : lexLt f g a b = true) (h2 : lexLt f g b c = true) : lexLt f g a c = true := by
  rw [lexLt_eq_true_iff] at h1 h2 ⊢
  omega

lemma lexLt_irrefl {α : Type} (f g : α → Nat) (a : α) : lexLt f g a a = false := by
  rw [lexLt_eq_false_iff]
  omega

lemma lexLt_neg_trans {α : Type} (f g : α → Nat) (a b c : α)
    (h1 : lexLt f g a b = false) (h2 : lexLt f g b c = false) : lexLt f g a c = false := by
  rw [lexLt_eq_false_iff] at h1 h2 ⊢
  omega

lemma pickMin_cons {α : Type} (lt : α → α → Bool) (x y : α) (ys : List α) :
    pickMin lt x (y :: ys) = pickMin lt (if lt y x then y else x) ys := rfl

lemma pickMin_mem {α : Type} (lt : α → α → Bool) (x : α) (xs : List α) :
    pickMin lt x xs = x ∨ pickMin lt x xs ∈ xs := by
  induction xs generalizing x with
  | nil => exact Or.inl rfl
  | cons y ys ih =>
    rw [pickMin_cons]
    rcases ih (if lt y x then y else x) with h | h
    · rw [h]
      by_cases hxy : lt y x
      · rw [if_pos hxy]
        exact Or.inr (List.mem_cons_self y ys)
      · rw [if_neg hxy]
        exact Or.inl rfl
    · exact Or.inr (List.mem_cons_of_mem y h)

lemma pickMin_not_beat {α : Type} (lt : α → α → Bool)
    (htrans : ∀ a b c, lt a b = true → lt b c = true → lt a c = true)
    (hirr : ∀ a, lt a a = false)
    (hneg : ∀ a b c, lt a b = false → lt b c = false → lt a c = false) :
    ∀ (xs : List α) (x y : α), y = x ∨ y ∈ xs → lt y (pickMin lt x xs) = false := by
  intro xs
  induction xs with
  | nil =>
    intro x y hy
    rcases hy with rfl | h
    · exact hirr y
    · cases h
  | cons z zs ih =>
    intro x y hy
    rw [pickMin_cons]
    by_cases hzx : lt z x
    · rw [if_pos hzx]
      rcases hy with rfl | hy2
      · cases hx : lt y (pickMin lt z zs) with
        | false => rfl
        | true =>
          have hz := htrans z y _ hzx hx
          have hzf := ih z z (Or.inl rfl)
          exact Bool.noConfusion (hzf.symm.trans hz)
      · rcases List.mem_cons.mp hy2 with rfl | hy3
        · exact ih y y (Or.inl rfl)
        · exact ih z y (Or.inr hy3)
    · rw [if_neg hzx]
      have hzxf : lt z x = false := by
        cases hlt : lt z x with
        | false => rfl
        | true => exact absurd hlt hzx
      rcases hy with rfl | hy2
      · exact ih y y (Or.inl rfl)
      · rcases List.mem_cons.mp hy2 with rfl | hy3
        · exact hneg y x _ hzxf (ih x x (Or.inl rfl))
        · exact ih x y (Or.inr hy3)

/-! ## Candidate selection lemmas -/

lemma candLt_trans (r : VideoRecord) (a b c : VideoRecord × Nat)
    (h1 : candLt r a b = true) (h2 : candLt r b c = true) : candLt r a c = true :=
  lexLt_trans _ _ a b c h1 h2

lemma candLt_irrefl (r : VideoRecord) (a : VideoRecord × Nat) : candLt r a a = false :=
  lexLt_irrefl _ _ a

lemma candLt_neg_trans (r : VideoRecord) (a b c : VideoRecord × Nat)
    (h1 : candLt r a b = false) (h2 : candLt r b c = false) : candLt r a c = false :=
  lexLt_neg_trans _ _ a b c h1 h2

lemma selectBest_mem {r : VideoRecord} {l : List (VideoRecord × Nat)}
    {p : VideoRecord × Nat} (h : selectBest r l = some p) : p ∈ l := by
  cases l with
  | nil => cases h
  | cons x xs =>
    injection h with h
    rcases pickMin_mem (candLt r) x xs with h2 | h2
    · rw [← h, h2]
      exact List.mem_cons_self x xs
    · rw [← h]
      exact List.mem_cons_of_mem x h2

lemma selectBest_min {r : VideoRecord} {l : List (VideoRecord × Nat)}
    {p : VideoRecord × Nat} (h : selectBest r l = some p) :
    ∀ q ∈ l, candLt r q p = false := by
  cases l with
  | nil => cases h
  | cons x xs =>
    injection h with h
    intro q hq
    rw [← h]
    apply pickMin_not_beat (candLt r) (candLt_trans r) (candLt_irrefl r)
      (candLt_neg_trans r) xs x q
    rcases List.mem_cons.mp hq with rfl | hq2
    · exact Or.inl rfl
    · exact Or.inr hq2

lemma selectBest_eq_none {r : VideoRecord} {l : List (VideoRecord × Nat)} :
    selectBest r l = none ↔ l = [] := by
  cases l <;> simp [selectBest]

lemma candidates_mem_iff (σ : Provider) (r : VideoRecord) (hr : List Bool)
    (pool : List VideoRecord) (c : VideoRecord) (d : Nat) :
    (c, d) ∈ candidates σ r hr pool ↔
      (c ∈ pool ∧ c.platform ≠ r.platform ∧ c.duration = r.duration ∧
        ∃ hc, σ c = some hc ∧ hammingDist hr hc ≤ 10 ∧ d = hammingDist hr hc) := by
  unfold candidates
  rw [List.mem_filterMap]
  constructor
  · rintro ⟨e, he_mem, he_eq⟩
    by_cases hcond : e.platform ≠ r.platform ∧ e.duration = r.duration
    · rw [if_pos hcond] at he_eq
      cases hσe : σ e with
      | none =>
        rw [hσe, Option.none_bind] at he_eq
        cases he_eq
      | some hev =>
        rw [hσe, Option.some_bind] at he_eq
        by_cases hd : hammingDist hr hev ≤ 10
        · rw [if_pos hd] at he_eq
          injection he_eq with he_eq
          injection he_eq with he1 he2
          subst he1
          subst he2
          exact ⟨he_mem, hcond.1, hcond.2, hev, hσe, hd, rfl⟩
        · rw [if_neg hd] at he_eq
          cases he_eq
    · rw [if_neg hcond] at he_eq
      cases he_eq
  · rintro ⟨hmem, hplat, hdur, hcv, hσc, hd, hd_eq⟩
    refine ⟨c, hmem, ?_⟩
    rw [if_pos ⟨hplat, hdur⟩, hσc, Option.some_bind, if_pos hd, hd_eq]

/-! ## Phase 1 lemmas -/

lemma phase1_partition (σ : Provider) :
    ∀ ts gs : List VideoRecord,
      (↑(unitRecs (phase1 σ ts gs).units) : Multiset VideoRecord) +
        ↑(excRecs (phase1 σ ts gs).excs) +
        ↑((phase1 σ ts gs).poolT) + ↑((phase1 σ ts gs).poolG) = ↑ts + ↑gs := by
  intro ts
  induction ts with
  | nil =>
    intro gs
    simp [phase1, unitRecs, excRecs]
  | cons t ts ih =>
    intro gs
    cases gs with
    | nil =>
      simp [phase1, unitRecs, excRecs]
    | cons g gs =>
      have h := ih gs
      rcases hp : phase1 σ ts gs with ⟨U, E, PT, PG⟩
      rw [hp] at h
      simp only at h
      have h2 : ({t} : Multiset VideoRecord) + {g} +
          ((unitRecs U : Multiset VideoRecord) + excRecs E + PT + PG) =
          ({t} : Multiset VideoRecord) + {g} + ((ts : Multiset VideoRecord) + gs) := by
        rw [h]
      cases hσt : σ t with
      | none =>
        simp only [phase1, hσt, hp, unitRecs, excRecs]
        simp only [← Multiset.cons_coe, ← Multiset.singleton_add]
        refine Eq.trans (Eq.trans ?_ h2) ?_ <;> abel
      | some ht =>
        cases hσg : σ g with
        | none =>
          simp only [phase1, hσt, hσg, hp, unitRecs, excRecs]
          simp only [← Multiset.cons_coe, ← Multiset.singleton_add]
          refine Eq.trans (Eq.trans ?_ h2) ?_ <;> abel
        | some hg =>
          by_cases hcond : t.duration = g.duration ∧ hammingDist ht hg ≤ 10
          · simp only [phase1, hσt, hσg, if_pos hcond, hp, unitRecs, recordsOf,
              excRecs, List.cons_append, List.nil_append]
            simp only [← Multiset.cons_coe, ← Multiset.singleton_add]
            refine Eq.trans (Eq.trans ?_ h2) ?_ <;> abel
          · simp only [phase1, hσt, hσg, if_neg hcond, hp, unitRecs, excRecs]
            simp only [← Multiset.cons_coe, ← Multiset.singleton_add]
            refine Eq.trans (Eq.trans ?_ h2) ?_ <;> abel

lemma phase2_partition (σ : Provider) (pool : List VideoRecord) :
    (↑(unitRecs (phase2 σ pool).1) : Multiset VideoRecord) +
      ↑(excRecs (phase2 σ pool).2) = ↑pool := by
  induction pool using phase2.induct σ with
  | case1 => simp [phase2, unitRecs, excRecs]
  | case2 r rest hσ ih =>
    simp only [phase2, hσ, excRecs]
    simp only [← Multiset.cons_coe, ← Multiset.singleton_add]
    rw [← ih]
    abel
  | case3 r rest hr hσ hsel ih =>
    simp only [phase2, hσ, hsel, excRecs]
    simp only [← Multiset.cons_coe, ← Multiset.singleton_add]
    rw [← ih]
    abel
  | case4 r rest hr hσ c d hsel ih =>
    have hc : c ∈ rest :=
      ((candidates_mem_iff σ r hr rest c d).mp (selectBest_mem hsel)).1
    have hperm : (rest : Multiset VideoRecord) = {c} + ↑(rest.erase c) := by
      rw [Multiset.singleton_add, Multiset.cons_coe]
      exact Multiset.coe_eq_coe.mpr (List.perm_cons_erase hc)
    simp only [phase2, hσ, hsel, unitRecs, recordsOf, List.cons_append, List.nil_append]
    simp only [← Multiset.cons_coe, ← Multiset.singleton_add]
    rw [hperm, ← ih]
    abel

lemma phase2_units_pairs (σ : Provider) (pool : List VideoRecord) :
    ∀ u ∈ (phase2 σ pool).1, ∃ t g, u = PayoutUnit.pair t g "fallback" := by
  induction pool using phase2.induct σ with
  | case1 => simp [phase2]
  | case2 r rest hσ ih =>
    simp only [phase2, hσ]
    exact ih
  | case3 r rest hr hσ hsel ih =>
    simp only [phase2, hσ, hsel]
    exact ih
  | case4 r rest hr hσ c d hsel ih =>
    simp only [phase2, hσ, hsel]
    intro u hu
    rcases List.mem_cons.mp hu with rfl | hu2
    · exact ⟨r, c, rfl⟩
    · exact ih u hu2

lemma phase2_total (σ : Provider) (pool : List VideoRecord) :
    ∀ r ∈ pool,
      (∃ u ∈ (phase2 σ pool).1, r ∈ recordsOf u) ∨
        (⟨r, unpairedReason⟩ : ExceptionRecord) ∈ (phase2 σ pool).2 ∨
        (⟨r, extractionFailedReason⟩ : ExceptionRecord) ∈ (phase2 σ pool).2 := by
  induction pool using phase2.induct σ with
  | case1 => simp
  | case2 r rest hσ ih =>
    intro x hx
    simp only [phase2, hσ]
    rcases List.mem_cons.mp hx with rfl | hx2
    · right; right
      exact List.mem_cons_self _ _
    · rcases ih x hx2 with ⟨u, hu, hru⟩ | h | h
      · exact Or.inl ⟨u, hu, hru⟩
      · exact Or.inr (Or.inl (List.mem_cons_of_mem _ h))
      · exact Or.inr (Or.inr (List.mem_cons_of_mem _ h))
  | case3 r rest hr hσ hsel ih =>
    intro x hx
    simp only [phase2, hσ, hsel]
    rcases List.mem_cons.mp hx with rfl | hx2
    · right; left
      exact List.mem_cons_self _ _
    · rcases ih x hx2 with ⟨u, hu, hru⟩ | h | h
      · exact Or.inl ⟨u, hu, hru⟩
      · exact Or.inr (Or.inl (List.mem_cons_of_mem _ h))
      · exact Or.inr (Or.inr (List.mem_cons_of_mem _ h))
  | case4 r rest hr hσ c d hsel ih =>
    have hc : c ∈ rest :=
      ((candidates_mem_iff σ r hr rest c d).mp (selectBest_mem hsel)).1
    intro x hx
    simp only [phase2, hσ, hsel]
    rcases List.mem_cons.mp hx with rfl | hx2
    · refine Or.inl ⟨PayoutUnit.pair x c "fallback", List.mem_cons_self _ _, ?_⟩
      simp [recordsOf]
    · by_cases hxc : x = c
      · subst hxc
        refine Or.inl ⟨PayoutUnit.pair r x "fallback", List.mem_cons_self _ _, ?_⟩
        simp [recordsOf]
      · have hx3 : x ∈ rest.erase c := (List.mem_erase_of_ne hxc).mpr hx2
        rcases ih x hx3 with ⟨u, hu, hru⟩ | h | h
        · exact Or.inl ⟨u, List.mem_cons_of_mem _ hu, hru⟩
        · exact Or.inr (Or.inl h)
        · exact Or.inr (Or.inr h)

lemma unitRecs_append (a b : List PayoutUnit) :
    unitRecs (a ++ b) = unitRecs a ++ unitRecs b := by
  induction a with
  | nil => simp [unitRecs]
  | cons u us ih => simp [unitRecs, ih, List.append_assoc]

lemma excRecs_append (a b : List ExceptionRecord) :
    excRecs (a ++ b) = excRecs a ++ excRecs b := by
  induction a with
  | nil => simp [excRecs]
  | cons e es ih => simp [excRecs, ih]

lemma mem_unitRecs {us : List PayoutUnit} {u : PayoutUnit} {x : VideoRecord}
    (hu : u ∈ us) (hx : x ∈ recordsOf u) : x ∈ unitRecs us := by
  induction us with
  | nil => cases hu
  | cons v vs ih =>
    rcases List.mem_cons.mp hu with rfl | hu2
    · exact List.mem_append_left _ hx
    · exact List.mem_append_right _ (ih hu2)

lemma mem_excRecs {es : List ExceptionRecord} {e : ExceptionRecord} (h : e ∈ es) :
    e.record ∈ excRecs es := by
  induction es with
  | nil => cases h
  | cons f fs ih =>
    rcases List.mem_cons.mp h with rfl | h2
    · exact List.mem_cons_self _ _
    · exact List.mem_cons_of_mem _ (ih h2)

lemma sortByCreated_coe (l : List VideoRecord) :
    ((sortByCreated l : List VideoRecord) : Multiset VideoRecord) = ↑l :=
  Multiset.coe_eq_coe.mpr (List.perm_insertionSort _ l)

lemma matchCreator_partition (σ : Provider) (ts gs : List VideoRecord) :
    (↑(unitRecs (matchCreator σ ts gs).1) : Multiset VideoRecord) +
      ↑(excRecs (matchCreator σ ts gs).2) = ↑ts + ↑gs := by
  rcases hp : phase1 σ (sortByCreated ts) (sortByCreated gs) with ⟨U1, E1, PT, PG⟩
  have h1 := phase1_partition σ (sortByCreated ts) (sortByCreated gs)
  rw [hp] at h1
  simp only at h1
  rw [sortByCreated_coe, sortByCreated_coe] at h1
  have h2 := phase2_partition σ (sortByCreated (PT ++ PG))
  rw [sortByCreated_coe, ← Multiset.coe_add] at h2
  have hmid : (↑(unitRecs U1) : Multiset VideoRecord) + ↑(excRecs E1) +
      (↑(unitRecs (phase2 σ (sortByCreated (PT ++ PG))).1) +
        ↑(excRecs (phase2 σ (sortByCreated (PT ++ PG))).2)) = ↑ts + ↑gs := by
    rw [h2, ← h1]
    abel
  unfold matchCreator
  rw [hp]
  simp only
  rw [unitRecs_append, excRecs_append]
  simp only [← Multiset.coe_add]
  refine Eq.trans ?_ hmid
  abel

/-- C2: no VideoRecord is ever referenced by two PayoutUnits: for every input
whose records are pairwise distinct, the records referenced across all payout
units emitted by the matcher are pairwise distinct, so a record is consumed by
at most one unit across Phase 1 and Phase 2. -/
theorem no_double_booking (σ : Provider) (ts gs : List VideoRecord)
    (h : (ts ++ gs).Nodup) :
    (unitRecs (matchCreator σ ts gs).1).Nodup := by
  have hpart := matchCreator_partition σ ts gs
  have hnd : ((↑(unitRecs (matchCreator σ ts gs).1) : Multiset VideoRecord) +
      ↑(excRecs (matchCreator σ ts gs).2)).Nodup := by
    rw [hpart, Multiset.coe_add, Multiset.coe_nodup]
    exact h
  have hle : (↑(unitRecs (matchCreator σ ts gs).1) : Multiset VideoRecord) ≤
      ↑(unitRecs (matchCreator σ ts gs).1) + ↑(excRecs (matchCreator σ ts gs).2) :=
    Multiset.le_add_right _ _
  have := Multiset.nodup_of_le hle hnd
  rwa [Multiset.coe_nodup] at this

lemma phase2_cons_provider_failed (σ : Provider) (r : VideoRecord)
    (rest : List VideoRecord) (hσ : σ r = none) :
    phase2 σ (r :: rest) =
      ((phase2 σ rest).1,
        (⟨r, extractionFailedReason⟩ : ExceptionRecord) :: (phase2 σ rest).2) := by
  simp only [phase2, hσ]

lemma phase2_cons_exhausted (σ : Provider) (r : VideoRecord)
    (rest : List VideoRecord) (hr : List Bool) (hσ : σ r = some hr)
    (hsel : selectBest r (candidates σ r hr rest) = none) :
    phase2 σ (r :: rest) =
      ((phase2 σ rest).1,
        (⟨r, unpairedReason⟩ : ExceptionRecord) :: (phase2 σ rest).2) := by
  simp only [phase2, hσ, hsel]

lemma phase2_exception_reasons (σ : Provider) (pool : List VideoRecord) :
    ∀ e ∈ (phase2 σ pool).2,
      (σ e.record = none ∧ e.reason = extractionFailedReason) ∨
      ((∃ h, σ e.record = some h) ∧ e.reason = unpairedReason) := by
  induction pool using phase2.induct σ with
  | case1 => simp [phase2]
  | case2 r rest hσ ih =>
    simp only [phase2, hσ]
    intro e he
    rcases List.mem_cons.mp he with rfl | he2
    · exact Or.inl ⟨hσ, rfl⟩
    · exact ih e he2
  | case3 r rest hr hσ hsel ih =>
    simp only [phase2, hσ, hsel]
    intro e he
    rcases List.mem_cons.mp he with rfl | he2
    · exact Or.inr ⟨⟨hr, hσ⟩, rfl⟩
    · exact ih e he2
  | case4 r rest hr hσ c d hsel ih =>
    simp only [phase2, hσ, hsel]
    exact ih

/-- C4: a record that exhausts Phase 2 with no accepted candidate is routed to
exceptions with reason "unpaired — no cross-platform match found" and is never
re-emitted as a solo payout unit: every unit Phase 2 emits is a fallback pair;
when the head record's hash resolves and no candidate survives, the step emits
exactly the unpaired exception for it (the empty survivor list is the only way
the search ends with no accepted candidate), while a provider failure emits
exactly the extraction-failed exception; every exception of a run carries the
reason dictated by its record's provider outcome — unpaired if and only if the
hash resolved; every hash-resolved pool record consumed by no unit lands in
exceptions with the unpaired reason; and on a duplicate-free pool no exception
record is referenced by any unit (so it carries no payout). -/
theorem phase2_unmatched_to_exceptions (σ : Provider) (pool : List VideoRecord) :
    (∀ u ∈ (phase2 σ pool).1, ∃ t g, u = PayoutUnit.pair t g "fallback") ∧
    (∀ (r : VideoRecord) (rest : List VideoRecord) (hr : List Bool),
      σ r = some hr → selectBest r (candidates σ r hr rest) = none →
      candidates σ r hr rest = [] ∧
      phase2 σ (r :: rest) =
        ((phase2 σ rest).1,
          (⟨r, unpairedReason⟩ : ExceptionRecord) :: (phase2 σ rest).2)) ∧
    (∀ (r : VideoRecord) (rest : List VideoRecord), σ r = none →
      phase2 σ (r :: rest) =
        ((phase2 σ rest).1,
          (⟨r, extractionFailedReason⟩ : ExceptionRecord) :: (phase2 σ rest).2)) ∧
    (∀ e ∈ (phase2 σ pool).2,
      (σ e.record = none ∧ e.reason = extractionFailedReason) ∨
      ((∃ h, σ e.record = some h) ∧ e.reason = unpairedReason)) ∧
    (∀ r ∈ pool, (∃ hr, σ r = some hr) →
      (∀ u ∈ (phase2 σ pool).1, r ∉ recordsOf u) →
      (⟨r, unpairedReason⟩ : ExceptionRecord) ∈ (phase2 σ pool).2) ∧
    (pool.Nodup → ∀ e ∈ (phase2 σ pool).2, ∀ u ∈ (phase2 σ pool).1,
      e.record ∉ recordsOf u) := by
  refine ⟨phase2_units_pairs σ pool, ?_, ?_, phase2_exception_reasons σ pool, ?_, ?_⟩
  · intro r rest hr hσ hsel
    exact ⟨selectBest_eq_none.mp hsel, phase2_cons_exhausted σ r rest hr hσ hsel⟩
  · intro r rest hσ
    exact phase2_cons_provider_failed σ r rest hσ
  · intro r hrmem hres hnone
    rcases phase2_total σ pool r hrmem with ⟨u, hu, hru⟩ | h | h
    · exact absurd hru (hnone u hu)
    · exact h
    · rcases phase2_exception_reasons σ pool _ h with ⟨hn, _⟩ | ⟨_, hreason⟩
      · obtain ⟨hr, hσr⟩ := hres
        rw [hσr] at hn
        cases hn
      · have hne : ¬extractionFailedReason = unpairedReason := by decide
        exact absurd hreason hne
  · intro hnd e he u hu hx
    have hpart := phase2_partition σ pool
    have hnd2 : ((↑(unitRecs (phase2 σ pool).1) : Multiset VideoRecord) +
        ↑(excRecs (phase2 σ pool).2)).Nodup := by
      rw [hpart, Multiset.coe_nodup]
      exact hnd
    have hdisj := Multiset.disjoint_of_nodup_add hnd2
    have h1 : e.record ∈ (↑(unitRecs (phase2 σ pool).1) : Multiset VideoRecord) := by
      rw [Multiset.mem_coe]
      exact mem_unitRecs hu hx
    have h2 : e.record ∈ (↑(excRecs (phase2 σ pool).2) : Multiset VideoRecord) := by
      rw [Multiset.mem_coe]
      exact mem_excRecs he
    exact Multiset.disjoint_left.mp hdisj h1 h2

lemma phase1_cons_subset (σ : Provider) (t g : VideoRecord) (ts gs : List VideoRecord) :
    (∀ u ∈ (phase1 σ ts gs).units, u ∈ (phase1 σ (t :: ts) (g :: gs)).units) ∧
    (∀ e ∈ (phase1 σ ts gs).excs, e ∈ (phase1 σ (t :: ts) (g :: gs)).excs) ∧
    (∀ x ∈ (phase1 σ ts gs).poolT, x ∈ (phase1 σ (t :: ts) (g :: gs)).poolT) ∧
    (∀ x ∈ (phase1 σ ts gs).poolG, x ∈ (phase1 σ (t :: ts) (g :: gs)).poolG) := by
  cases hσt : σ t with
  | none =>
    simp only [phase1, hσt]
    exact ⟨fun u hu => hu, fun e he => List.mem_cons_of_mem _ (List.mem_cons_of_mem _ he),
      fun x hx => hx, fun x hx => hx⟩
  | some ht =>
    cases hσg : σ g with
    | none =>
      simp only [phase1, hσt, hσg]
      exact ⟨fun u hu => hu, fun e he => List.mem_cons_of_mem _ (List.mem_cons_of_mem _ he),
        fun x hx => hx, fun x hx => hx⟩
    | some hg =>
      by_cases hcond : t.duration = g.duration ∧ hammingDist ht hg ≤ 10
      · simp only [phase1, hσt, hσg, if_pos hcond]
        exact ⟨fun u hu => List.mem_cons_of_mem _ hu, fun e he => he,
          fun x hx => hx, fun x hx => hx⟩
      · simp only [phase1, hσt, hσg, if_neg hcond]
        exact ⟨fun u hu => hu, fun e he => he,
          fun x hx => List.mem_cons_of_mem _ hx, fun x hx => List.mem_cons_of_mem _ hx⟩

lemma phase1_index_confirmed (σ : Provider) :
    ∀ (i : Nat) (ts gs : List VideoRecord) (hit : i < ts.length) (hig : i < gs.length)
      (ht hg : List Bool), σ (ts.get ⟨i, hit⟩) = some ht → σ (gs.get ⟨i, hig⟩) = some hg →
      (ts.get ⟨i, hit⟩).duration = (gs.get ⟨i, hig⟩).duration → hammingDist ht hg ≤ 10 →
      PayoutUnit.pair (ts.get ⟨i, hit⟩) (gs.get ⟨i, hig⟩) "sequence" ∈ (phase1 σ ts gs).units := by
  intro i
  induction i with
  | zero =>
    intro ts gs hit hig ht hg hσt hσg hdur hham
    match ts, gs with
    | t :: ts, g :: gs =>
      simp only [List.get] at hσt hσg hdur ⊢
      have hcond : (t.duration = g.duration ∧ hammingDist ht hg ≤ 10) := ⟨hdur, hham⟩
      simp only [phase1, hσt, hσg, if_pos hcond]
      exact List.mem_cons_self _ _
  | succ i ih =>
    intro ts gs hit hig ht hg hσt hσg hdur hham
    match ts, gs with
    | t :: ts, g :: gs =>
      simp only [List.get] at hσt hσg hdur ⊢
      exact (phase1_cons_subset σ t g ts gs).1 _
        (ih ts gs (by simpa using hit) (by simpa using hig) ht hg hσt hσg hdur hham)

lemma phase1_index_rejected (σ : Provider) :
    ∀ (i : Nat) (ts gs : List VideoRecord) (hit : i < ts.length) (hig : i < gs.length)
      (ht hg : List Bool), σ (ts.get ⟨i, hit⟩) = some ht → σ (gs.get ⟨i, hig⟩) = some hg →
      ¬((ts.get ⟨i, hit⟩).duration = (gs.get ⟨i, hig⟩).duration ∧ hammingDist ht hg ≤ 10) →
      ts.get ⟨i, hit⟩ ∈ (phase1 σ ts gs).poolT ∧ gs.get ⟨i, hig⟩ ∈ (phase1 σ ts gs).poolG := by
  intro i
  induction i with
  | zero =>
    intro ts gs hit hig ht hg hσt hσg hcond
    match ts, gs with
    | t :: ts, g :: gs =>
      simp only [List.get] at hσt hσg hcond ⊢
      simp only [phase1, hσt, hσg, if_neg hcond]
      exact ⟨List.mem_cons_self _ _, List.mem_cons_self _ _⟩
  | succ i ih =>
    intro ts gs hit hig ht hg hσt hσg hcond
    match ts, gs with
    | t :: ts, g :: gs =>
      simp only [List.get] at hσt hσg hcond ⊢
      have h := ih ts gs (by simpa using hit) (by simpa using hig) ht hg hσt hσg hcond
      exact ⟨(phase1_cons_subset σ t g ts gs).2.2.1 _ h.1,
        (phase1_cons_subset σ t g ts gs).2.2.2 _ h.2⟩

lemma phase1_index_failed (σ : Provider) :
    ∀ (i : Nat) (ts gs : List VideoRecord) (hit : i < ts.length) (hig : i < gs.length),
      (σ (ts.get ⟨i, hit⟩) = none ∨ σ (gs.get ⟨i, hig⟩) = none) →
      (⟨ts.get ⟨i, hit⟩, extractionFailedReason⟩ : ExceptionRecord) ∈ (phase1 σ ts gs).excs ∧
      (⟨gs.get ⟨i, hig⟩, extractionFailedReason⟩ : ExceptionRecord) ∈ (phase1 σ ts gs).excs := by
  intro i
  induction i with
  | zero =>
    intro ts gs hit hig hfail
    match ts, gs with
    | t :: ts, g :: gs =>
      simp only [List.get] at hfail ⊢
      cases hσt : σ t with
      | none =>
        simp only [phase1, hσt]
        exact ⟨List.mem_cons_self _ _, List.mem_cons_of_mem _ (List.mem_cons_self _ _)⟩
      | some ht =>
        cases hσg : σ g with
        | none =>
          simp only [phase1, hσt, hσg]
          exact ⟨List.mem_cons_self _ _, List.mem_cons_of_mem _ (List.mem_cons_self _ _)⟩
        | some hg =>
          rw [hσt, hσg] at hfail
          rcases hfail with h | h <;> cases h
  | succ i ih =>
    intro ts gs hit hig hfail
    match ts, gs with
    | t :: ts, g :: gs =>
      simp only [List.get] at hfail ⊢
      have h := ih ts gs (by simpa using hit) (by simpa using hig) hfail
      exact ⟨(phase1_cons_subset σ t g ts gs).2.1 _ h.1,
        (phase1_cons_subset σ t g ts gs).2.1 _ h.2⟩

lemma phase1_surplus_t (σ : Provider) :
    ∀ (ts gs : List VideoRecord) (j : Nat) (hj : j < ts.length), gs.length ≤ j →
      ts.get ⟨j, hj⟩ ∈ (phase1 σ ts gs).poolT := by
  intro ts
  induction ts with
  | nil =>
    intro gs j hj
    exact absurd hj (by simp)
  | cons t ts ih =>
    intro gs j hj hle
    cases gs with
    | nil =>
      simp only [phase1]
      exact List.get_mem _ _ _
    | cons g gs =>
      match j with
      | j + 1 =>
        simp only [List.get]
        exact (phase1_cons_subset σ t g ts gs).2.2.1 _
          (ih gs j (by simpa using hj) (by simpa using hle))

lemma phase1_surplus_g (σ : Provider) :
    ∀ (ts gs : List VideoRecord) (j : Nat) (hj : j < gs.length), ts.length ≤ j →
      gs.get ⟨j, hj⟩ ∈ (phase1 σ ts gs).poolG := by
  intro ts
  induction ts with
  | nil =>
    intro gs j hj hle
    simp only [phase1]
    exact List.get_mem _ _ _
  | cons t ts ih =>
    intro gs j hj hle
    cases gs with
    | nil => exact absurd hj (by simp)
    | cons g gs =>
      match j with
      | j + 1 =>
        simp only [List.get]
        exact (phase1_cons_subset σ t g ts gs).2.2.2 _
          (ih gs j (by simpa using hj) (by simpa using hle))

lemma phase1_units_not_in_pools (σ : Provider) (ts gs : List VideoRecord)
    (hnd : (ts ++ gs).Nodup) :
    ∀ u ∈ (phase1 σ ts gs).units, ∀ x ∈ recordsOf u,
      x ∉ (phase1 σ ts gs).poolT ∧ x ∉ (phase1 σ ts gs).poolG := by
  intro u hu x hx
  have hpart := phase1_partition σ ts gs
  have hnd2 : ((↑(unitRecs (phase1 σ ts gs).units) : Multiset VideoRecord) +
      (↑(excRecs (phase1 σ ts gs).excs) + ↑((phase1 σ ts gs).poolT) +
        ↑((phase1 σ ts gs).poolG))).Nodup := by
    rw [show (↑(unitRecs (phase1 σ ts gs).units) : Multiset VideoRecord) +
        (↑(excRecs (phase1 σ ts gs).excs) + ↑((phase1 σ ts gs).poolT) +
          ↑((phase1 σ ts gs).poolG)) =
        ↑(unitRecs (phase1 σ ts gs).units) + ↑(excRecs (phase1 σ ts gs).excs) +
          ↑((phase1 σ ts gs).poolT) + ↑((phase1 σ ts gs).poolG) from by abel,
      hpart, Multiset.coe_add, Multiset.coe_nodup]
    exact hnd
  have hdisj := Multiset.disjoint_of_nodup_add hnd2
  have hxu : x ∈ (↑(unitRecs (phase1 σ ts gs).units) : Multiset VideoRecord) := by
    rw [Multiset.mem_coe]
    exact mem_unitRecs hu hx
  constructor
  · intro hmem
    refine Multiset.disjoint_left.mp hdisj hxu ?_
    rw [Multiset.mem_add, Multiset.mem_add]
    exact Or.inl (Or.inr (Multiset.mem_coe.mpr hmem))
  · intro hmem
    refine Multiset.disjoint_left.mp hdisj hxu ?_
    rw [Multiset.mem_add]
    exact Or.inr (Multiset.mem_coe.mpr hmem)

/-- C5: Phase 1 pairs the i-th TikTok record with the i-th Instagram record of
the (creation-time sorted) sequences and confirms only on exact duration
equality plus hash Hamming distance ≤ 10; on provider failure both records go
to exceptions with reason "first frame extraction failed"; rejected pairs
enter the unmatched pools on both sides, positional surplus enters the pools
directly, and records of confirmed units are consumed immediately (they never
remain in the pools handed to Phase 2). -/
theorem phase1_sequence_pairing (σ : Provider) (ts gs : List VideoRecord) (i : Nat)
    (hit : i < ts.length) (hig : i < gs.length) :
    (∀ ht hg, σ (ts.get ⟨i, hit⟩) = some ht → σ (gs.get ⟨i, hig⟩) = some hg →
      (((ts.get ⟨i, hit⟩).duration = (gs.get ⟨i, hig⟩).duration ∧
          hammingDist ht hg ≤ 10) →
        PayoutUnit.pair (ts.get ⟨i, hit⟩) (gs.get ⟨i, hig⟩) "sequence" ∈
          (phase1 σ ts gs).units) ∧
      (¬((ts.get ⟨i, hit⟩).duration = (gs.get ⟨i, hig⟩).duration ∧
          hammingDist ht hg ≤ 10) →
        ts.get ⟨i, hit⟩ ∈ (phase1 σ ts gs).poolT ∧
          gs.get ⟨i, hig⟩ ∈ (phase1 σ ts gs).poolG)) ∧
    ((σ (ts.get ⟨i, hit⟩) = none ∨ σ (gs.get ⟨i, hig⟩) = none) →
      (⟨ts.get ⟨i, hit⟩, extractionFailedReason⟩ : ExceptionRecord) ∈
        (phase1 σ ts gs).excs ∧
      (⟨gs.get ⟨i, hig⟩, extractionFailedReason⟩ : ExceptionRecord) ∈
        (phase1 σ ts gs).excs) ∧
    (∀ j (hj : j < ts.length), gs.length ≤ j →
      ts.get ⟨j, hj⟩ ∈ (phase1 σ ts gs).poolT) ∧
    (∀ j (hj : j < gs.length), ts.length ≤ j →
      gs.get ⟨j, hj⟩ ∈ (phase1 σ ts gs).poolG) ∧
    ((ts ++ gs).Nodup → ∀ u ∈ (phase1 σ ts gs).units, ∀ x ∈ recordsOf u,
      x ∉ (phase1 σ ts gs).poolT ∧ x ∉ (phase1 σ ts gs).poolG) := by
  refine ⟨?_, ?_, ?_, ?_, phase1_units_not_in_pools σ ts gs⟩
  · intro ht hg hσt hσg
    constructor
    · intro hcond
      exact phase1_index_confirmed σ i ts gs hit hig ht hg hσt hσg hcond.1 hcond.2
    · intro hcond
      exact phase1_index_rejected σ i ts gs hit hig ht hg hσt hσg hcond
  · exact phase1_index_failed σ i ts gs hit hig
  · intro j hj hle
    exact phase1_surplus_t σ ts gs j hj hle
  · intro j hj hle
    exact phase1_surplus_g σ ts gs j hj hle

/-- C6: one step of the Phase 2 fallback search: the candidate pool is the
other-platform records of exactly equal duration whose hash resolves within
Hamming distance 10, the accepted candidate minimises the Hamming distance
with remaining ties broken by the closest creation timestamp, the accepted
pair is emitted with match method "fallback" and the candidate is removed from
the pool immediately; processing order is ascending creation time, as
sortByCreated always produces a creation-time sorted list. -/
theorem phase2_fallback_selection (σ : Provider) (r : VideoRecord)
    (rest : List VideoRecord) (hr : List Bool) (c : VideoRecord) (d : Nat)
    (hσ : σ r = some hr)
    (hsel : selectBest r (candidates σ r hr rest) = some (c, d)) :
    phase2 σ (r :: rest) =
      (PayoutUnit.pair r c "fallback" :: (phase2 σ (rest.erase c)).1,
        (phase2 σ (rest.erase c)).2) ∧
    c ∈ rest ∧ c.platform ≠ r.platform ∧ c.duration = r.duration ∧
    (∃ hc, σ c = some hc ∧ hammingDist hr hc = d ∧ d ≤ 10) ∧
    (∀ p : VideoRecord × Nat, p ∈ candidates σ r hr rest ↔
      (p.1 ∈ rest ∧ p.1.platform ≠ r.platform ∧ p.1.duration = r.duration ∧
        ∃ hc, σ p.1 = some hc ∧ hammingDist hr hc ≤ 10 ∧ p.2 = hammingDist hr hc)) ∧
    (∀ p ∈ candidates σ r hr rest,
      d < p.2 ∨ (d = p.2 ∧
        timeDist c.createdAt r.createdAt ≤ timeDist p.1.createdAt r.createdAt)) ∧
    (∀ l : List VideoRecord,
      List.Sorted (fun a b : VideoRecord => a.createdAt ≤ b.createdAt)
        (sortByCreated l)) := by
  have hmem := selectBest_mem hsel
  have hspec := (candidates_mem_iff σ r hr rest c d).mp hmem
  refine ⟨?_, hspec.1, hspec.2.1, hspec.2.2.1, ?_, ?_, ?_, ?_⟩
  · simp only [phase2, hσ, hsel]
  · obtain ⟨hc, hσc, hle, hdeq⟩ := hspec.2.2.2
    exact ⟨hc, hσc, hdeq.symm, hdeq ▸ hle⟩
  · intro p
    obtain ⟨c1, d1⟩ := p
    exact candidates_mem_iff σ r hr rest c1 d1
  · intro p hp
    have hmin := selectBest_min hsel p hp
    unfold candLt at hmin
    rw [lexLt_eq_false_iff] at hmin
    simp only at hmin
    omega
  · intro l
    haveI : IsTotal VideoRecord (fun a b : VideoRecord => a.createdAt ≤ b.createdAt) :=
      ⟨fun a b => Nat.le_total _ _⟩
    haveI : IsTrans VideoRecord (fun a b : VideoRecord => a.createdAt ≤ b.createdAt) :=
      ⟨fun a b c h1 h2 => Nat.le_trans h1 h2⟩
    exact List.sorted_insertionSort _ l

lemma payout_below_threshold {chosen : Nat} (h : chosen < 1000) : payout chosen = 0 := by
  show tierPayout (effectiveViews chosen) = 0
  apply tierPayout_band1
  unfold effectiveViews
  omega

lemma aggFor_creator (c : String) (units : List PayoutUnit)
    (excs : List ExceptionRecord) : (aggFor c units excs).creator = c := rfl

lemma mem_observedCreators {units : List PayoutUnit} {excs : List ExceptionRecord}
    {c : String} :
    c ∈ observedCreators units excs ↔
      c ∈ (unitRecs units ++ excRecs excs).map (fun r => r.creator) := by
  unfold observedCreators
  exact List.mem_dedup

/-- C3: the Creator Aggregator outputs exactly one CreatorAggregate per
distinct creator identity observed anywhere — in particular, the creator of
every valid input record of a matcher run appears, including creators with
zero qualifying units, who appear with total payout 0 and qualified count 0 —
and each aggregate carries the sum of payouts over its creator's paired units
only, plus counts of qualified units (chosen ≥ 1,000), paired units and
exceptions. -/
theorem creator_aggregation (units : List PayoutUnit) (excs : List ExceptionRecord) :
    ((aggregateRun units excs).map (fun a => a.creator) = observedCreators units excs) ∧
    (observedCreators units excs).Nodup ∧
    (∀ (σ : Provider) (ts gs : List VideoRecord) (r : VideoRecord), r ∈ ts ++ gs →
      ∃ a ∈ aggregateRun (matchCreator σ ts gs).1 (matchCreator σ ts gs).2,
        a.creator = r.creator) ∧
    (∀ a ∈ aggregateRun units excs,
      a.totalPayout = (((units.filter (fun u => decide (unitCreator u = a.creator))).filter
          isPairedUnit).map (fun u => payout (chosenViews u))).sum ∧
      a.qualifiedCount = (units.filter (fun u => decide (unitCreator u = a.creator))).countP
          (fun u => decide (1000 ≤ chosenViews u)) ∧
      a.pairedCount = (units.filter
          (fun u => decide (unitCreator u = a.creator))).countP isPairedUnit ∧
      a.exceptionCount = excs.countP (fun e => decide (e.record.creator = a.creator))) ∧
    (∀ c, c ∈ observedCreators units excs →
      (∀ u ∈ units, unitCreator u = c → chosenViews u < 1000) →
      ∃ a ∈ aggregateRun units excs,
        a.creator = c ∧ a.totalPayout = 0 ∧ a.qualifiedCount = 0) := by
  refine ⟨?_, List.nodup_dedup _, ?_, ?_, ?_⟩
  · unfold aggregateRun
    rw [List.map_map]
    exact List.map_id _
  · intro σ ts gs r hr
    have hpart := matchCreator_partition σ ts gs
    have hmem : r ∈ unitRecs (matchCreator σ ts gs).1 ++
        excRecs (matchCreator σ ts gs).2 := by
      have h1 : r ∈ ((ts ++ gs : List VideoRecord) : Multiset VideoRecord) :=
        Multiset.mem_coe.mpr hr
      rw [← Multiset.coe_add, ← hpart, Multiset.coe_add, Multiset.mem_coe] at h1
      exact h1
    have hobs : r.creator ∈ observedCreators (matchCreator σ ts gs).1
        (matchCreator σ ts gs).2 :=
      mem_observedCreators.mpr (List.mem_map_of_mem _ hmem)
    exact ⟨aggFor r.creator (matchCreator σ ts gs).1 (matchCreator σ ts gs).2,
      List.mem_map_of_mem _ hobs, rfl⟩
  · intro a ha
    rcases List.mem_map.mp ha with ⟨c, hc, rfl⟩
    exact ⟨rfl, rfl, rfl, rfl⟩
  · intro c hc hzero
    refine ⟨aggFor c units excs, List.mem_map_of_mem _ hc, rfl, ?_, ?_⟩
    · show (((units.filter (fun u => decide (unitCreator u = c))).filter
          isPairedUnit).map (fun u => payout (chosenViews u))).sum = 0
      apply List.sum_eq_zero
      intro x hx
      rcases List.mem_map.mp hx with ⟨u, hu, rfl⟩
      have hu2 := List.mem_filter.mp (List.mem_filter.mp hu).1
      have hcr : unitCreator u = c := of_decide_eq_true hu2.2
      exact payout_below_threshold (hzero u hu2.1 hcr)
    · show (units.filter (fun u => decide (unitCreator u = c))).countP
          (fun u => decide (1000 ≤ chosenViews u)) = 0
      rw [List.countP_eq_zero]
      intro u hu
      have hu2 := List.mem_filter.mp hu
      have hcr : unitCreator u = c := of_decide_eq_true hu2.2
      have := hzero u hu2.1 hcr
      simp only [decide_eq_true_eq]
      omega

/-! ## Deduplicator lemmas -/

lemma natListEnc_inj : ∀ {a b : List Nat}, natListEnc a = natListEnc b → a = b := by
  intro a
  induction a with
  | nil =>
    rintro (_ | ⟨y, ys⟩) h
    · rfl
    · simp [natListEnc] at h
  | cons x xs ih =>
    rintro (_ | ⟨y, ys⟩) h
    · simp [natListEnc] at h
    · simp only [natListEnc, Nat.add_right_cancel_iff] at h
      have h2 := Nat.pair_eq_pair.mp h
      rw [h2.1, ih h2.2]

lemma char_toNat_injective : Function.Injective Char.toNat := by
  intro a b h
  exact Char.eq_of_val_eq (UInt32.ext h)

lemma strEnc_inj {a b : String} (h : strEnc a = strEnc b) : a = b := by
  unfold strEnc at h
  have h2 := natListEnc_inj h
  have h3 : a.data = b.data := List.map_injective_iff.mpr char_toNat_injective h2
  cases a
  cases b
  simp_all

lemma optStrEnc_inj {a b : Option String} (h : optStrEnc a = optStrEnc b) : a = b := by
  cases a with
  | none =>
    cases b with
    | none => rfl
    | some s => simp [optStrEnc] at h
  | some s =>
    cases b with
    | none => simp [optStrEnc] at h
    | some t =>
      simp only [optStrEnc, Nat.add_right_cancel_iff] at h
      rw [strEnc_inj h]

lemma optNatEnc_inj {a b : Option Nat} (h : optNatEnc a = optNatEnc b) : a = b := by
  cases a <;> cases b <;> simp_all [optNatEnc]

lemma platCode_inj {a b : Platform} (h : platCode a = platCode b) : a = b := by
  cases a <;> cases b <;> simp_all [platCode]

lemma recKey_inj {a b : VideoRecord} (h : recKey a = recKey b) : a = b := by
  unfold recKey at h
  have h2 := natListEnc_inj h
  simp only [List.cons.injEq, and_true] at h2
  obtain ⟨h1, h2, h3, h4, h5, h6, h7, h8, h9, h10⟩ := h2
  cases a
  cases b
  simp only [VideoRecord.mk.injEq]
  simp only at h1 h2 h3 h4 h5 h6 h7 h8 h9 h10
  exact ⟨platCode_inj h4, strEnc_inj h1, strEnc_inj h2, optStrEnc_inj h3, h5, h6,
    optNatEnc_inj h7, h8, h9, h10⟩

lemma dedupPref_trans (a b c : VideoRecord) (h1 : dedupPref a b = true)
    (h2 : dedupPref b c = true) : dedupPref a c = true :=
  lexLt_trans _ _ c b a h2 h1

lemma dedupPref_irrefl (a : VideoRecord) : dedupPref a a = false :=
  lexLt_irrefl _ _ a

lemma dedupPref_neg_trans (a b c : VideoRecord) (h1 : dedupPref a b = false)
    (h2 : dedupPref b c = false) : dedupPref a c = false :=
  lexLt_neg_trans _ _ c b a h2 h1

lemma dedupKept_mem {g : List VideoRecord} {w : VideoRecord}
    (h : dedupKept g = some w) : w ∈ g := by
  cases g with
  | nil => cases h
  | cons x xs =>
    injection h with h
    rcases pickMin_mem dedupPref x xs with h2 | h2
    · rw [← h, h2]
      exact List.mem_cons_self _ _
    · rw [← h]
      exact List.mem_cons_of_mem _ h2

lemma dedupKept_max {g : List VideoRecord} {w : VideoRecord}
    (h : dedupKept g = some w) : ∀ y ∈ g, dedupPref y w = false := by
  cases g with
  | nil => cases h
  | cons x xs =>
    injection h with h
    intro y hy
    rw [← h]
    apply pickMin_not_beat dedupPref dedupPref_trans dedupPref_irrefl
      dedupPref_neg_trans xs x y
    rcases List.mem_cons.mp hy with rfl | hy2
    · exact Or.inl rfl
    · exact Or.inr hy2

lemma dedupKept_unique {g : List VideoRecord} {w1 w2 : VideoRecord}
    (hm1 : w1 ∈ g) (hmax1 : ∀ y ∈ g, dedupPref y w1 = false)
    (hm2 : w2 ∈ g) (hmax2 : ∀ y ∈ g, dedupPref y w2 = false) : w1 = w2 := by
  have h1 := hmax1 w2 hm2
  have h2 := hmax2 w1 hm1
  unfold dedupPref at h1 h2
  rw [lexLt_eq_false_iff] at h1 h2
  have hk : recKey w1 = recKey w2 := by omega
  exact recKey_inj hk

lemma dedupKept_perm {g g' : List VideoRecord} (hp : g.Perm g') :
    dedupKept g = dedupKept g' := by
  cases g with
  | nil =>
    have : g' = [] := List.Perm.nil_eq hp ▸ rfl
    rw [this]
  | cons x xs =>
    cases g' with
    | nil => exact absurd hp.length_eq (by simp)
    | cons y ys =>
      have hw : dedupKept (x :: xs) = some (pickMin dedupPref x xs) := rfl
      have hw' : dedupKept (y :: ys) = some (pickMin dedupPref y ys) := rfl
      rw [hw, hw']
      congr 1
      apply dedupKept_unique (g := x :: xs) (dedupKept_mem hw) (dedupKept_max hw)
      · exact hp.symm.subset (dedupKept_mem hw')
      · intro z hz
        exact dedupKept_max hw' z (hp.subset hz)

lemma dedupGroup_perm {g g' : List VideoRecord} (hp : g.Perm g') :
    (dedupGroup g).1 = (dedupGroup g').1 ∧ (dedupGroup g).2.Perm (dedupGroup g').2 := by
  have hk := dedupKept_perm hp
  unfold dedupGroup dedupLosers
  rw [hk]
  refine ⟨rfl, ?_⟩
  cases hkw : dedupKept g' with
  | none => simp
  | some w =>
    simp only
    exact List.Perm.map _ (List.Perm.filter _ (List.Perm.dedup (hp.filter _)))

lemma dedupGroup_fst {g : List VideoRecord} : (dedupGroup g).1 = dedupKept g := rfl

lemma dedupGroup_keeps_most_recent {g : List VideoRecord} {w : VideoRecord}
    {excs : List ExceptionRecord} (h : dedupGroup g = (some w, excs)) :
    w ∈ g ∧ ∀ r ∈ g, r.lastUpdated ≤ w.lastUpdated := by
  have hk : dedupKept g = some w := by
    rw [← dedupGroup_fst, h]
  refine ⟨dedupKept_mem hk, ?_⟩
  intro r hr
  have := dedupKept_max hk r hr
  unfold dedupPref at this
  rw [lexLt_eq_false_iff] at this
  omega

lemma dedupGroup_conflicts {g : List VideoRecord} {w : VideoRecord}
    {excs : List ExceptionRecord} (h : dedupGroup g = (some w, excs)) :
    ∀ r ∈ g, r.lastUpdated = w.lastUpdated → r ≠ w →
      (⟨r, conflictReason⟩ : ExceptionRecord) ∈ excs := by
  have hk : dedupKept g = some w := by
    rw [← dedupGroup_fst, h]
  intro r hr hlu hne
  have hexcs : excs = (dedupLosers g).map (fun r => ⟨r, conflictReason⟩) := by
    have := congrArg Prod.snd h
    simp only [dedupGroup] at this
    exact this.symm
  rw [hexcs]
  refine List.mem_map_of_mem _ ?_
  unfold dedupLosers
  rw [hk]
  refine List.mem_filter.mpr ⟨List.mem_dedup.mpr (List.mem_filter.mpr ⟨hr, ?_⟩), ?_⟩
  · exact decide_eq_true hlu
  · exact decide_eq_true hne

/-- C8: the Deduplicator groups records by stable link, falling back to the
stable id when the link is absent; within each group it keeps a record with
the most recent last-updated timestamp; every record tied at that timestamp
but materially different from the kept one is routed to exceptions with
reason "duplicate row with conflicting values"; and the result is independent
of the input order within a group — permuting a group leaves the kept record
unchanged and permutes the exception list. -/
theorem deduplicator_spec (g g' : List VideoRecord) (hp : g.Perm g') :
    (∀ (rs : List VideoRecord) (k : Sum String Nat) (r : VideoRecord),
      r ∈ groupOf rs k ↔ r ∈ rs ∧ dedupKey r = k) ∧
    (∀ w excs, dedupGroup g = (some w, excs) →
      w ∈ g ∧ (∀ r ∈ g, r.lastUpdated ≤ w.lastUpdated) ∧
      (∀ r ∈ g, r.lastUpdated = w.lastUpdated → r ≠ w →
        (⟨r, conflictReason⟩ : ExceptionRecord) ∈ excs)) ∧
    (dedupGroup g).1 = (dedupGroup g').1 ∧
    (dedupGroup g).2.Perm (dedupGroup g').2 := by
  refine ⟨?_, ?_, (dedupGroup_perm hp).1, (dedupGroup_perm hp).2⟩
  · intro rs k r
    simp [groupOf, List.mem_filter]
  · intro w excs h
    exact ⟨(dedupGroup_keeps_most_recent h).1, (dedupGroup_keeps_most_recent h).2,
      dedupGroup_conflicts h⟩

/-- Witness for C2: a concrete two-record run whose confirmed pair references
each record exactly once. -/
theorem no_double_booking_witness :
    (unitRecs (matchCreator wProv2 [wr2t] [wr2g]).1).Nodup :=
  no_double_booking wProv2 [wr2t] [wr2g] (by decide)

/-- Witness for C3: a creator whose only unit is below the qualification
threshold still appears, with total payout 0 and qualified count 0. -/
theorem creator_aggregation_witness :
    ∃ a ∈ aggregateRun [w3unit] [], a.creator = "alice" ∧ a.totalPayout = 0 ∧
      a.qualifiedCount = 0 :=
  (creator_aggregation [w3unit] []).2.2.2.2 "alice" (by decide) (by decide)

/-- Witness for C4: a concrete record whose hash resolves but whose candidate
search is empty is emitted as exactly the unpaired exception of its step. -/
theorem phase2_unmatched_to_exceptions_witness :
    candidates wProv4 wr4 [] ([] : List VideoRecord) = [] ∧
    phase2 wProv4 [wr4] =
      ((phase2 wProv4 ([] : List VideoRecord)).1,
        (⟨wr4, unpairedReason⟩ : ExceptionRecord) ::
          (phase2 wProv4 ([] : List VideoRecord)).2) :=
  (phase2_unmatched_to_exceptions wProv4 [wr4]).2.1 wr4 [] [] rfl rfl

/-- Witness for C5: a concrete duration-equal, hash-confirmed index-0 pair is
emitted as a sequence unit. -/
theorem phase1_sequence_pairing_witness :
    PayoutUnit.pair wr5t wr5g "sequence" ∈ (phase1 wProv5 [wr5t] [wr5g]).units := by
  have h := (phase1_sequence_pairing wProv5 [wr5t] [wr5g] 0
    (by decide) (by decide)).1 [] [] rfl rfl
  exact h.1 (by decide)

/-- Witness for C6: among two equal-distance candidates the one closest in
creation time is accepted and removed from the pool. -/
theorem phase2_fallback_selection_witness :
    wr6c2 ∈ [wr6c1, wr6c2] ∧
    phase2 wProv6 (wr6r :: [wr6c1, wr6c2]) =
      (PayoutUnit.pair wr6r wr6c2 "fallback" ::
          (phase2 wProv6 ([wr6c1, wr6c2].erase wr6c2)).1,
        (phase2 wProv6 ([wr6c1, wr6c2].erase wr6c2)).2) := by
  have h := phase2_fallback_selection wProv6 wr6r [wr6c1, wr6c2] [] wr6c2 0 rfl
    (by decide)
  exact ⟨h.2.1, h.1⟩

/-- Witness for C8: two conflicting duplicates in either order produce the
same kept record and a permutation of the same exceptions. -/
theorem deduplicator_spec_witness :
    (dedupGroup [wg1, wg2]).1 = (dedupGroup [wg2, wg1]).1 ∧
    (dedupGroup [wg1, wg2]).2.Perm (dedupGroup [wg2, wg1]).2 := by
  have h := deduplicator_spec [wg1, wg2] [wg2, wg1] (List.Perm.swap wg2 wg1 [])
  exact ⟨h.2.2.1, h.2.2.2⟩

/-! ## Front end theorems (C9, C10) -/

/-- C9: whenever startDate is empty, endDate is empty, or startDate compares
greater than endDate as a string, handleCalculate sets an error message and
returns without calling calculatePayouts, leaving summary, filename, the
empty-state flag and the loading state unchanged. -/
theorem handleCalculate_validation (backend : String → String → BackendResult)
    (s : AppState)
    (h : s.startDate = "" ∨ s.endDate = "" ∨ strLt s.endDate s.startDate = true) :
    (∃ m, ((handleCalculate backend s).1).error = some m) ∧
    (handleCalculate backend s).2 = false ∧
    ((handleCalculate backend s).1).summary = s.summary ∧
    ((handleCalculate backend s).1).filename = s.filename ∧
    ((handleCalculate backend s).1).isEmpty = s.isEmpty ∧
    ((handleCalculate backend s).1).isLoading = s.isLoading := by
  by_cases h1 : s.startDate = "" ∨ s.endDate = ""
  · unfold handleCalculate
    rw [if_pos h1]
    exact ⟨⟨_, rfl⟩, rfl, rfl, rfl, rfl, rfl⟩
  · have h2 : strLt s.endDate s.startDate = true := by tauto
    unfold handleCalculate
    rw [if_neg h1, if_pos h2]
    exact ⟨⟨_, rfl⟩, rfl, rfl, rfl, rfl, rfl⟩

/-- Witness for C9: a concrete state whose start date exceeds its end date. -/
theorem handleCalculate_validation_witness :
    (∃ m, ((handleCalculate (fun _ _ => BackendResult.err "boom")
      { startDate := "2024-02-10", endDate := "2024-02-01", isLoading := false,
        statusText := "", summary := none, filename := none, isEmpty := false,
        error := none }).1).error = some m) ∧
    ((handleCalculate (fun _ _ => BackendResult.err "boom")
      { startDate := "2024-02-10", endDate := "2024-02-01", isLoading := false,
        statusText := "", summary := none, filename := none, isEmpty := false,
        error := none }).2 = false) :=
  let thm := handleCalculate_validation (fun _ _ => BackendResult.err "boom")
    { startDate := "2024-02-10", endDate := "2024-02-01", isLoading := false,
      statusText := "", summary := none, filename := none, isEmpty := false,
      error := none } (by decide)
  ⟨thm.1, thm.2.1⟩

/-- C10: on a successful calculatePayouts response with valid dates, the empty
state is shown iff the response summary has total_videos_processed = 0 and
total_creators = 0; in every other success case the response summary and
filename are stored and the results card is rendered. -/
theorem handleCalculate_success (backend : String → String → BackendResult)
    (s : AppState) (data : CalcResponse)
    (h1 : ¬(s.startDate = "" ∨ s.endDate = ""))
    (h2 : strLt s.endDate s.startDate = false)
    (hb : backend s.startDate s.endDate = BackendResult.ok data) :
    (emptyStateShown (handleCalculate backend s).1 = true ↔
      (data.summary.total_videos_processed = 0 ∧ data.summary.total_creators = 0)) ∧
    (¬(data.summary.total_videos_processed = 0 ∧ data.summary.total_creators = 0) →
      ((handleCalculate backend s).1).summary = some data.summary ∧
      ((handleCalculate backend s).1).filename = some data.filename ∧
      resultsCardRendered (handleCalculate backend s).1 = true ∧
      emptyStateShown (handleCalculate backend s).1 = false) ∧
    ((data.summary.total_videos_processed = 0 ∧ data.summary.total_creators = 0) →
      resultsCardRendered (handleCalculate backend s).1 = false) := by
  unfold handleCalculate
  rw [if_neg h1, if_neg (by rw [h2]; exact Bool.false_ne_true), hb]
  by_cases he : data.summary.total_videos_processed = 0 ∧ data.summary.total_creators = 0
  · refine ⟨?_, ?_, ?_⟩
    · simp [if_pos he, emptyStateShown, he]
    · intro hne
      exact absurd he hne
    · intro hyes
      simp [if_pos he, resultsCardRendered]
  · refine ⟨?_, ?_, ?_⟩
    · simp [if_neg he, emptyStateShown, he]
    · intro hne
      refine ⟨?_, ?_, ?_, ?_⟩ <;>
        simp [if_neg he, resultsCardRendered, emptyStateShown]
    · intro hyes
      exact absurd hyes he

/-- Witness for C10: a concrete successful response with nonzero counts stores
the summary and renders the results card. -/
theorem handleCalculate_success_witness :
    ((handleCalculate
      (fun _ _ => BackendResult.ok
        { summary := { total_creators := 2, total_payout := 85,
                       total_videos_processed := 3, total_paired := 1,
                       total_unpaired := 1, total_exceptions := 0 },
          filename := "Polymarket Payout Summary 2024-02-01 to 2024-02-10.xlsx" })
      { startDate := "2024-02-01", endDate := "2024-02-10", isLoading := false,
        statusText := "", summary := none, filename := none, isEmpty := false,
        error := none }).1).summary =
      some { total_creators := 2, total_payout := 85, total_videos_processed := 3,
             total_paired := 1, total_unpaired := 1, total_exceptions := 0 } :=
  ((handleCalculate_success
    (fun _ _ => BackendResult.ok
      { summary := { total_creators := 2, total_payout := 85,
                     total_videos_processed := 3, total_paired := 1,
                     total_unpaired := 1, total_exceptions := 0 },
        filename := "Polymarket Payout Summary 2024-02-01 to 2024-02-10.xlsx" })
    { startDate := "2024-02-01", endDate := "2024-02-10", isLoading := false,
      statusText := "", summary := none, filename := none, isEmpty := false,
      error := none }
    { summary := { total_creators := 2, total_payout := 85,
                   total_videos_processed := 3, total_paired := 1,
                   total_unpaired := 1, total_exceptions := 0 },
      filename := "Polymarket Payout Summary 2024-02-01 to 2024-02-10.xlsx" }
    (by decide) (by decide) rfl).2.1 (by decide)).1

end PM
